import Mathlib

/-!
Verification development for the single-file chat automation agent
(`main.py`).  The Python source is shallowly embedded: message text is
`List Char`, randomness is an oracle `r : Nat → ℚ` feeding the real-number
semantics of `random.uniform a b = a + (b - a) * r` for `r ∈ [0, 1)`,
network responses are explicit inputs, and the side-effecting loops become
pure trace-producing functions.  Definition names follow the source.
-/

namespace SelfBot

/-- Real-number semantics of `random.uniform(a, b)` for a sample
`r ∈ [0, 1)`. -/
def uniform (a b r : ℚ) : ℚ := a + (b - a) * r

/-- Python `needle in haystack` substring test on character lists. -/
def containsSub (pat : List Char) : List Char → Bool
  | [] => pat.isEmpty
  | c :: rest => pat.isPrefixOf (c :: rest) || containsSub pat rest

/-- Python `str.lower()` (ASCII case fold, faithful on the texts the
program handles). -/
def lowerStr (s : List Char) : List Char := s.map Char.toLower

/-- The fixed peer identity `MODAY_UID = "432610292342587392"`, read as a
numeric message-platform id. -/
def MODAY_UID : Nat := 432610292342587392

/-- Message author as fetched from the platform: `author.id` and
`author.username`. -/
structure Author where
  id : Nat
  username : List Char
deriving DecidableEq

/-- A fetched message: id (opaque, increasing within a channel), author and
text content. -/
structure Msg where
  id : Nat
  author : Author
  content : List Char
deriving DecidableEq

/- ### ResponseParser: rolls-left extraction (main.py lines 231-236)

`re.search(r"You have \*\*(\d+)\*\* rolls left", text)`: scan positions
left to right; at each position the literal opening, a nonempty maximal
digit run, and the literal closing must follow.  Backtracking to a shorter
digit run can never succeed because the closing literal starts with a
non-digit, so the maximal-run matcher below is exactly the regex. -/

/-- Numeric value of a digit run, i.e. Python `int` on the captured
group. -/
def natOfDigits (ds : List Char) : Nat :=
  ds.foldl (fun n c => 10 * n + (c.toNat - 48)) 0

/-- Attempt to match `You have \*\*(\d+)\*\* rolls left` at the head of
`s`, returning the captured count. -/
def matchRolls (s : List Char) : Option Nat :=
  if ("You have **".toList).isPrefixOf s then
    let t := s.drop 11
    let ds := t.takeWhile Char.isDigit
    if ds.isEmpty then none
    else if ("** rolls left".toList).isPrefixOf (t.dropWhile Char.isDigit) then
      some (natOfDigits ds)
    else none
  else none

/-- `re.search` for the rolls pattern: first matching position, scanning
left to right. -/
def rollsSearch : List Char → Option Nat
  | [] => none
  | c :: rest =>
    match matchRolls (c :: rest) with
    | some n => some n
    | none => rollsSearch rest

/-- `rolls_left`: `0` by default, the captured count when the pattern
matches (main.py lines 232-235). -/
def extractRollsLeft (s : List Char) : Nat :=
  (rollsSearch s).getD 0

/- ### Reply selection inside `check_claim_and_execute`
(main.py lines 216-229). -/

/-- ASCII apostrophe, kept out of string literals. -/
def apoChar : Char := Char.ofNat 39

/-- The keyword `"can't react"` from the source keyword list. -/
def cantReactKw : List Char :=
  "can".toList ++ [apoChar] ++ "t react".toList

/-- The keyword list of main.py line 222. -/
def statusKeywords : List (List Char) :=
  ["claim".toList, "you have".toList, "you may".toList,
   cantReactKw, "power".toList, "stock".toList]

/-- `any(keyword in lower_content for keyword in [...])`. -/
def hasStatusKeyword (content : List Char) : Bool :=
  statusKeywords.any (fun kw => containsSub kw (lowerStr content))

/-- Authorship test of main.py line 219:
`author.get("id") == MODAY_UID or "Mudae#0807" in author.get("username", "")`. -/
def isModayAuthor (a : Author) : Bool :=
  a.id == MODAY_UID || containsSub ("Mudae#0807".toList) a.username

/-- The reply-selection loop of main.py lines 217-225: first message in
the fetched batch (newest first) whose author passes `isModayAuthor` and
whose lowercased content contains a status keyword. -/
def selectModayResponse : List Msg → Option (List Char)
  | [] => none
  | m :: ms =>
    if isModayAuthor m.author then
      if hasStatusKeyword m.content then some m.content
      else selectModayResponse ms
    else selectModayResponse ms

/- ### Scheduler cycle trace (main.py lines 202-259) -/

/-- Observable scheduler events: a command send and an awaited sleep. -/
inductive Event where
  | send (content : List Char)
  | sleep (q : ℚ)
deriving DecidableEq

/-- The probe command `"$tu"`. -/
def tuCmd : List Char := "$tu".toList

/-- The roll command `"$wa"`. -/
def waCmd : List Char := "$wa".toList

/-- The roll loop of main.py lines 251-256: `n` sends of `"$wa"`, each
followed by `asyncio.sleep(random.uniform(1.15, 2.02))`. -/
def rollTrace (r : Nat → ℚ) : Nat → Nat → List Event
  | 0, _ => []
  | n + 1, i =>
    Event.send waCmd :: Event.sleep (uniform (23/20) (101/50) (r i)) ::
      rollTrace r n (i + 1)

/-- `check_claim_and_execute` as a trace: send the probe; when it failed
(`probeOk = false`) return; otherwise sleep `uniform(1.2, 3)`, select the
reply from the fetched batch, and when one was found run the roll loop on
the extracted count.  The branch/confirmation block of lines 238-248 is
commented out in the source and therefore absent here. -/
def check_claim_and_execute (probeOk : Bool) (batch : List Msg)
    (r : Nat → ℚ) : List Event :=
  Event.send tuCmd ::
    (if probeOk then
      Event.sleep (uniform (6/5) 3 (r 0)) ::
        (match selectModayResponse batch with
         | none => []
         | some content => rollTrace r (extractRollsLeft content) 1)
     else [])

/-- Number of sends of a given command in a trace. -/
def countSend (c : List Char) : List Event → Nat
  | [] => 0
  | Event.send d :: rest => (if d = c then 1 else 0) + countSend c rest
  | Event.sleep _ :: rest => countSend c rest

example : extractRollsLeft ("You have **5** rolls left".toList) = 5 := by decide

example : extractRollsLeft ("You have ** rolls left".toList) = 0 := by decide

example : extractRollsLeft ("no pattern here".toList) = 0 := by decide

example :
    extractRollsLeft
      ("Wasted! You have **12** rolls left. You have **3** rolls left".toList)
      = 12 := by decide

/- ### TransportClient (main.py lines 92-156)

Each HTTP attempt consumes the next element of an explicit response list;
`Except.error ()` models an exception raised inside the `try` block.
The trace records the requests made and the sleeps awaited. -/

/-- Transport-level events: one HTTP request, or an awaited sleep. -/
inductive TEvent where
  | req
  | sleep (q : ℚ)
deriving DecidableEq

/-- Response to a message post: status, optional `Retry-After` header
value, and an abstract parsed payload. -/
structure PostResp where
  status : Nat
  retryAfter : Option Nat
  payload : Nat
deriving DecidableEq

/-- Response to a reaction put: status and optional `Retry-After`. -/
structure ReactResp where
  status : Nat
  retryAfter : Option Nat
deriving DecidableEq

/-- Response to a message fetch: status and parsed body. -/
structure FetchResp where
  status : Nat
  body : List Msg
deriving DecidableEq

/-- `send_message` (main.py lines 106-133): sleep `uniform(1.0, 2.0)`,
post; on 200/201 return the payload; on 429 sleep
`Retry-After (default 5) + uniform(1, 3)` and retry with the next
response; on any other status, or an exception, return `none`. -/
def send_message : List (Except Unit PostResp) → (Nat → ℚ) → Nat →
    List TEvent × Option Nat
  | [], _, _ => ([], none)
  | Except.error _ :: _, r, i =>
    ([TEvent.sleep (uniform 1 2 (r i)), TEvent.req], none)
  | Except.ok resp :: rest, r, i =>
    if resp.status = 200 ∨ resp.status = 201 then
      ([TEvent.sleep (uniform 1 2 (r i)), TEvent.req], some resp.payload)
    else if resp.status = 429 then
      let w : Nat := resp.retryAfter.getD 5
      let next := send_message rest r (i + 2)
      (TEvent.sleep (uniform 1 2 (r i)) :: TEvent.req ::
         TEvent.sleep ((w : ℚ) + uniform 1 3 (r (i + 1))) :: next.1, next.2)
    else
      ([TEvent.sleep (uniform 1 2 (r i)), TEvent.req], none)

/-- `add_reaction` (main.py lines 135-156): put; on 204 return `true`; on
429 sleep `Retry-After (default 1) + uniform(0.5, 1.5)` and retry with the
next response; on any other status, or an exception, return `false`. -/
def add_reaction : List (Except Unit ReactResp) → (Nat → ℚ) → Nat →
    List TEvent × Bool
  | [], _, _ => ([], false)
  | Except.error _ :: _, _, _ => ([TEvent.req], false)
  | Except.ok resp :: rest, r, i =>
    if resp.status = 204 then ([TEvent.req], true)
    else if resp.status = 429 then
      let w : Nat := resp.retryAfter.getD 1
      let next := add_reaction rest r (i + 1)
      (TEvent.req :: TEvent.sleep ((w : ℚ) + uniform (1/2) (3/2) (r i)) ::
         next.1, next.2)
    else ([TEvent.req], false)

/-- `get_recent_messages` (main.py lines 92-104): one request; on 200
return the parsed body, on any other status, or an exception, return the
empty list.  There is no 429 handling and no retry. -/
def get_recent_messages : Except Unit FetchResp → List TEvent × List Msg
  | Except.error _ => ([TEvent.req], [])
  | Except.ok resp =>
    ([TEvent.req], if resp.status = 200 then resp.body else [])

/- ### EventMonitor scan (main.py lines 261-290) -/

/-- Monitor-side authorship test of main.py line 279:
`author.get("id") == MODAY_UID or "MoDay" in author.get("username", "")`. -/
def isMoDayMonitor (a : Author) : Bool :=
  a.id == MODAY_UID || containsSub ("MoDay".toList) a.username

/-- The cursor test of main.py line 272:
`last_message_id and message_id == last_message_id`. -/
def cursorHit : Option Nat → Nat → Bool
  | none, _ => false
  | some c, i => i == c

/-- The `for message in reversed(messages)` body (main.py lines 269-281)
applied to an already-reversed batch: break on the cursor id, skip
self-authored messages, dispatch peer messages to `handle_moday_message`.
Returns the dispatched messages in dispatch order. -/
def monitorWalk (cursor : Option Nat) (selfId : Nat) : List Msg → List Msg
  | [] => []
  | m :: ms =>
    if cursorHit cursor m.id then []
    else if m.author.id == selfId then monitorWalk cursor selfId ms
    else if isMoDayMonitor m.author then m :: monitorWalk cursor selfId ms
    else monitorWalk cursor selfId ms

/-- One monitor iteration (main.py lines 267-284): walk the reversed
batch, then set the cursor to the newest fetched id when the batch is
nonempty, leaving it unchanged otherwise. -/
def monitorScan (selfId : Nat) (cursor : Option Nat) (batch : List Msg) :
    List Msg × Option Nat :=
  (monitorWalk cursor selfId batch.reverse,
   match batch with
   | [] => cursor
   | m :: _ => some m.id)

/-- Cursor value after a sequence of scans starting from cursor `c`. -/
def cursorAfter (selfId : Nat) (c : Option Nat) : List (List Msg) → Option Nat
  | [] => c
  | b :: bs => cursorAfter selfId (monitorScan selfId c b).2 bs

/-- Newest ids reported by the nonempty fetches, in fetch order. -/
def batchHeadIds (bs : List (List Msg)) : List Nat :=
  bs.filterMap (fun b => b.head?.map Msg.id)

/- ### Loop harness (main.py lines 261-290 and 323-340) -/

/-- Outcome of one loop iteration body: normal completion or an uncaught
exception reaching the iteration boundary. -/
inductive Outcome where
  | ok
  | err
deriving DecidableEq

/-- `claim_check_loop` (main.py lines 329-340) as the per-iteration sleep
trace: a normal iteration sleeps `3600 + uniform(-100, 100)`, a failed one
is caught and sleeps `uniform(300, 600)`; the loop then continues. -/
def claim_check_loop (r : Nat → ℚ) : List Outcome → Nat → List (Outcome × ℚ)
  | [], _ => []
  | Outcome.ok :: os, i =>
    (Outcome.ok, 3600 + uniform (-100) 100 (r i)) :: claim_check_loop r os (i + 1)
  | Outcome.err :: os, i =>
    (Outcome.err, uniform 300 600 (r i)) :: claim_check_loop r os (i + 1)

/-- `message_monitor_loop` iteration pacing (main.py lines 286-290): a
normal iteration sleeps `uniform(8, 15)`, a failed one is caught and
sleeps `uniform(30, 60)`; the loop then continues. -/
def message_monitor_loop (r : Nat → ℚ) : List Outcome → Nat →
    List (Outcome × ℚ)
  | [], _ => []
  | Outcome.ok :: os, i =>
    (Outcome.ok, uniform 8 15 (r i)) :: message_monitor_loop r os (i + 1)
  | Outcome.err :: os, i =>
    (Outcome.err, uniform 30 60 (r i)) :: message_monitor_loop r os (i + 1)

/- ### ResponseParser: `extract_character_name` (main.py lines 158-182)

Every pattern in the source has the shape
`open ( [^stops]+ ) close` where the first character of `close` belongs to
`stops`; hence the regex backtracking never accepts anything but the
maximal run of non-stop characters, and the greedy matcher below is exact.
The source file is doubly encoded, so the bracket delimiters Python
actually compiles are the mojibake characters U+00E3, U+20AC, U+2018,
U+0160, U+2039, U+2013, U+2014 (the third byte of each original bracket is
lost where it falls outside cp1252). -/

/-- One delimiter pattern: opening literal, stop set of the character
class, closing literal. -/
structure DelimPat where
  openD : List Char
  stops : List Char
  closeD : List Char

/-- U+00E3. -/
def moj1 : Char := Char.ofNat 227
/-- U+20AC. -/
def moj2 : Char := Char.ofNat 8364
/-- U+2018. -/
def mojQL : Char := Char.ofNat 8216
/-- U+0160. -/
def mojS : Char := Char.ofNat 352
/-- U+2039. -/
def mojLt : Char := Char.ofNat 8249
/-- U+2013. -/
def mojEn : Char := Char.ofNat 8211
/-- U+2014. -/
def mojEm : Char := Char.ofNat 8212
/-- Backtick. -/
def btChar : Char := Char.ofNat 96
/-- Double quote. -/
def dqChar : Char := Char.ofNat 34

/-- The ordered pattern list of main.py lines 161-169. -/
def patternsList : List DelimPat :=
  [⟨['*', '*'], ['*'], ['*', '*']⟩,
   ⟨[btChar], [btChar], [btChar]⟩,
   ⟨[dqChar], [dqChar], [dqChar]⟩,
   ⟨[apoChar], [apoChar], [apoChar]⟩,
   ⟨[moj1, moj2], [moj1, moj2, mojQL], [moj1, moj2, mojQL]⟩,
   ⟨[moj1, moj2, mojS], [moj1, moj2, mojLt], [moj1, moj2, mojLt]⟩,
   ⟨[moj1, moj2, mojEn], [moj1, moj2, mojEm], [moj1, moj2, mojEm]⟩]

/-- Match one pattern at the head of `s`; on success return the capture
and the remainder of `s` after the closing literal. -/
def matchDelim (p : DelimPat) (s : List Char) : Option (List Char × List Char) :=
  if p.openD.isPrefixOf s then
    let t := s.drop p.openD.length
    let cap := t.takeWhile (fun c => !(p.stops.contains c))
    let rest := t.dropWhile (fun c => !(p.stops.contains c))
    if cap.isEmpty then none
    else if p.closeD.isPrefixOf rest then some (cap, rest.drop p.closeD.length)
    else none
  else none

/-- `re.findall` for one pattern: scan left to right, emitting the capture
of each non-overlapping match.  The fuel argument only bounds the
recursion; each step consumes at least one character, so `s.length` fuel
is always enough. -/
def findallAux (p : DelimPat) : Nat → List Char → List (List Char)
  | 0, _ => []
  | _, [] => []
  | fuel + 1, c :: cs =>
    match matchDelim p (c :: cs) with
    | some (cap, rest) => cap :: findallAux p fuel rest
    | none => findallAux p fuel cs

/-- `re.findall(pattern, s)`. -/
def findallDelim (p : DelimPat) (s : List Char) : List (List Char) :=
  findallAux p s.length s

/-- Python `str.strip()`. -/
def pyStrip (s : List Char) : List Char :=
  ((s.dropWhile Char.isWhitespace).reverse.dropWhile Char.isWhitespace).reverse

/-- Python `str.isdigit()`: nonempty and all digits. -/
def pyIsDigit (s : List Char) : Bool :=
  !s.isEmpty && s.all Char.isDigit

/-- Python `clean_match.startswith('$')`. -/
def startsDollar : List Char → Bool
  | [] => false
  | c :: _ => c == '$'

/-- The filter of main.py line 176 on the stripped candidate:
`len(clean_match) > 2 and not clean_match.isdigit() and not
clean_match.startswith('$')`. -/
def nameOk (c : List Char) : Bool :=
  decide (2 < c.length) && !pyIsDigit c && !startsDollar c

/-- The inner `for match in matches` loop of main.py lines 174-177:
return the first stripped match passing `nameOk`. -/
def extractInner : List (List Char) → Option (List Char)
  | [] => none
  | m :: ms =>
    let clean := pyStrip m
    if nameOk clean then some clean else extractInner ms

/-- The outer `for pattern in patterns` loop of main.py lines 171-179. -/
def extractOuter (s : List Char) : List DelimPat → Option (List Char)
  | [] => none
  | p :: ps =>
    match extractInner (findallDelim p s) with
    | some name => some name
    | none => extractOuter s ps

/-- `extract_character_name` (main.py lines 158-182). -/
def extract_character_name (s : List Char) : Option (List Char) :=
  extractOuter s patternsList

/-- All stripped candidates, in pattern-list order then text order. -/
def candidateNames (s : List Char) : List (List Char) :=
  patternsList.flatMap (fun p => (findallDelim p s).map pyStrip)

example :
    extract_character_name ("the **Rem** card".toList) = some ("Rem".toList) := by
  decide

example : extract_character_name ("a **12** b \"Emilia\" c".toList)
    = some ("Emilia".toList) := by decide

example : extract_character_name ("just text **ab** and **$x yz**".toList)
    = none := by decide

/- ### Concrete inputs and auxiliary definitions used by the theorems -/

/-- Author record used by concrete claim-cycle inputs. -/
def c1Author : Author := ⟨MODAY_UID, "Mudae#0807".toList⟩

/-- A concrete probe reply with three rolls left. -/
def c1Msg : Msg := ⟨5, c1Author, "You have **3** rolls left".toList⟩

/-- The constant-zero sample oracle. -/
def rZero : Nat → ℚ := fun _ => 0

/-- Reply selection as the spec sentence words it, for comparison with the
source: the first fetched message authored by the peer, with no content
filtering. -/
def selectReplyByAuthorOnly (batch : List Msg) : Option (List Char) :=
  (batch.find? (fun m => isModayAuthor m.author)).map Msg.content

/-- A peer-authored message whose content carries no status keyword. -/
def c2Msg : Msg := ⟨10, ⟨MODAY_UID, "Mudae#0807".toList⟩, "hello".toList⟩

/-- The scenario reply of the spec, with an apostrophe in the text. -/
def c3Content : List Char :=
  "You can".toList ++ [apoChar]
    ++ "t claim for another 3h! You have **5** rolls left.".toList

/-- The scenario reply as a peer-authored message. -/
def c3Msg : Msg := ⟨20, c1Author, c3Content⟩

/-- The ineligible-branch follow-up command of the disabled block. -/
def qlwlCmd : List Char := "$ql wl".toList

/-- The eligible-branch follow-up command of the disabled block. -/
def qlwl2Cmd : List Char := "$ql wl2".toList

/-- The confirmation token of the disabled block. -/
def yCmd : List Char := "y".toList

/-- A send event is one of the two commands the cycle can actually emit. -/
def sendAllowed : Event → Bool
  | Event.send c => decide (c = tuCmd ∨ c = waCmd)
  | Event.sleep _ => true

/-- The last element of `l` as the new cursor value, or `c` when `l` is
empty; the cursor left by a run of scans is `lastOr` of the newest fetched
ids. -/
def lastOr : List Nat → Option Nat → Option Nat
  | [], c => c
  | x :: l, _ => lastOr l (some x)

/-- Peer-authored monitor message with id 1. -/
def mA : Msg := ⟨1, ⟨MODAY_UID, "MoDay".toList⟩, "a".toList⟩

/-- Peer-authored monitor message with id 2. -/
def mB : Msg := ⟨2, ⟨MODAY_UID, "MoDay".toList⟩, "b".toList⟩

/-- Peer-authored monitor message with id 3. -/
def mC : Msg := ⟨3, ⟨MODAY_UID, "MoDay".toList⟩, "c".toList⟩

/- ## Theorems -/

/-- Lower bound of `uniform`. -/
lemma uniform_lb (a b r : ℚ) (hab : a ≤ b) (h0 : 0 ≤ r) : a ≤ uniform a b r := by
  unfold uniform
  nlinarith

/-- Strict upper bound of `uniform`. -/
lemma uniform_ub (a b r : ℚ) (hab : a < b) (h1 : r < 1) : uniform a b r < b := by
  unfold uniform
  nlinarith

/-- The roll loop sends exactly `n` roll commands. -/
lemma rollTrace_count (r : Nat → ℚ) :
    ∀ n i, countSend waCmd (rollTrace r n i) = n := by
  intro n
  induction n with
  | zero => intro i; rfl
  | succ k ih =>
    intro i
    simp [rollTrace, countSend, ih]
    omega

/-- In the roll loop, every roll send is immediately followed by a sleep
drawn from `uniform(1.15, 2.02)`. -/
lemma rollTrace_next (r : Nat → ℚ) (hr : ∀ i, 0 ≤ r i ∧ r i < 1) :
    ∀ n i j e, (rollTrace r n i)[j]? = some e → e = Event.send waCmd →
      ∃ q, (rollTrace r n i)[j + 1]? = some (Event.sleep q)
        ∧ 23/20 ≤ q ∧ q < 101/50 := by
  intro n
  induction n with
  | zero =>
    intro i j e hje _
    simp [rollTrace] at hje
  | succ k ih =>
    intro i j e hje hewa
    match j with
    | 0 =>
      refine ⟨uniform (23/20) (101/50) (r i), by simp [rollTrace], ?_, ?_⟩
      · exact uniform_lb _ _ _ (by norm_num) (hr i).1
      · exact uniform_ub _ _ _ (by norm_num) (hr i).2
    | 1 =>
      subst hewa
      simp [rollTrace] at hje
    | j + 2 =>
      simp only [rollTrace, List.getElem?_cons_succ] at hje ⊢
      exact ih (i + 1) j e hje hewa

/-- C1: when the probe reply contains "You have **N** rolls left" the
cycle issues exactly N roll commands, each immediately followed by a sleep
in [1.15, 2.02); when the pattern is absent the count defaults to 0 and no
roll command is sent. -/
theorem C1_roll_commands (batch : List Msg) (content : List Char)
    (r : Nat → ℚ) (hr : ∀ i, 0 ≤ r i ∧ r i < 1)
    (hsel : selectModayResponse batch = some content) :
    countSend waCmd (check_claim_and_execute true batch r)
        = extractRollsLeft content
    ∧ (∀ j e, (check_claim_and_execute true batch r)[j]? = some e →
        e = Event.send waCmd →
        ∃ q, (check_claim_and_execute true batch r)[j + 1]?
            = some (Event.sleep q) ∧ 23/20 ≤ q ∧ q < 101/50)
    ∧ (rollsSearch content = none →
        countSend waCmd (check_claim_and_execute true batch r) = 0) := by
  have h1 : check_claim_and_execute true batch r
      = Event.send tuCmd :: Event.sleep (uniform (6/5) 3 (r 0)) ::
          rollTrace r (extractRollsLeft content) 1 := by
    simp [check_claim_and_execute, hsel]
  have hcount : countSend waCmd (check_claim_and_execute true batch r)
      = extractRollsLeft content := by
    rw [h1]
    have htu : tuCmd ≠ waCmd := by decide
    simp [countSend, htu, rollTrace_count]
  refine ⟨hcount, ?_, ?_⟩
  · intro j e hje hewa
    rw [h1] at hje ⊢
    match j with
    | 0 =>
      subst hewa
      simp at hje
      exact absurd hje (by decide)
    | 1 =>
      subst hewa
      simp at hje
    | j + 2 =>
      simp only [List.getElem?_cons_succ] at hje ⊢
      exact rollTrace_next r hr _ 1 j e hje hewa
  · intro hnone
    rw [hcount]
    simp [extractRollsLeft, hnone]

/-- C1 witness at a concrete batch and oracle. -/
theorem C1_roll_commands_witness :
    countSend waCmd (check_claim_and_execute true [c1Msg] rZero)
        = extractRollsLeft c1Msg.content
    ∧ (∀ j e, (check_claim_and_execute true [c1Msg] rZero)[j]? = some e →
        e = Event.send waCmd →
        ∃ q, (check_claim_and_execute true [c1Msg] rZero)[j + 1]?
            = some (Event.sleep q) ∧ 23/20 ≤ q ∧ q < 101/50)
    ∧ (rollsSearch c1Msg.content = none →
        countSend waCmd (check_claim_and_execute true [c1Msg] rZero) = 0) :=
  C1_roll_commands [c1Msg] c1Msg.content rZero
    (fun _ => ⟨le_refl 0, zero_lt_one⟩) (by decide)

/-- C2 counterexample: a peer-authored reply without a status keyword is
skipped by the code, so the selection is not authorship-only as claimed. -/
theorem C2_counterexample :
    selectReplyByAuthorOnly [c2Msg] = some ("hello".toList)
    ∧ selectModayResponse [c2Msg] = none
    ∧ ¬selectModayResponse [c2Msg] = selectReplyByAuthorOnly [c2Msg] := by
  decide

/-- C2 (amended): the reply is the first fetched message that is both
peer-authored and contains one of the status keywords in its lowercased
content; when no such message exists the cycle stops after the probe and
its grace sleep, sending nothing further. -/
theorem C2_reply_selection (batch : List Msg) (r : Nat → ℚ) :
    selectModayResponse batch
      = (batch.find? (fun m =>
          isModayAuthor m.author && hasStatusKeyword m.content)).map Msg.content
    ∧ (selectModayResponse batch = none →
        check_claim_and_execute true batch r
          = [Event.send tuCmd, Event.sleep (uniform (6/5) 3 (r 0))]) := by
  constructor
  · induction batch with
    | nil => rfl
    | cons m ms ih =>
      by_cases h1 : isModayAuthor m.author = true
      · by_cases h2 : hasStatusKeyword m.content = true
        · simp [selectModayResponse, h1, h2, List.find?]
        · simp only [Bool.not_eq_true] at h2
          simp [selectModayResponse, h1, h2, List.find?, ih]
      · simp only [Bool.not_eq_true] at h1
        simp [selectModayResponse, h1, List.find?, ih]
  · intro h
    simp [check_claim_and_execute, h]

/-- C2 witness: on the counterexample batch no reply qualifies, and the
cycle trace is exactly the probe send and the grace sleep. -/
theorem C2_reply_selection_witness :
    check_claim_and_execute true [c2Msg] rZero
      = [Event.send tuCmd, Event.sleep (uniform (6/5) 3 (rZero 0))] :=
  (C2_reply_selection [c2Msg] rZero).2 (by decide)

/-- C3 counterexample: on the spec scenario reply the cycle sends no
follow-up command and no confirmation token, only the probe and the five
roll commands. -/
theorem C3_counterexample :
    countSend qlwlCmd (check_claim_and_execute true [c3Msg] rZero) = 0
    ∧ countSend qlwl2Cmd (check_claim_and_execute true [c3Msg] rZero) = 0
    ∧ countSend yCmd (check_claim_and_execute true [c3Msg] rZero) = 0
    ∧ countSend waCmd (check_claim_and_execute true [c3Msg] rZero) = 5 := by
  decide

/-- The roll loop emits only allowed events. -/
lemma rollTrace_all_sendAllowed (r : Nat → ℚ) :
    ∀ n i, (rollTrace r n i).all sendAllowed = true := by
  intro n
  induction n with
  | zero => intro i; rfl
  | succ k ih =>
    intro i
    have hwa : sendAllowed (Event.send waCmd) = true := by decide
    simp [rollTrace, List.all_cons, hwa, sendAllowed, ih]

/-- C3 (amended): the branch follow-up and confirmation block is disabled
in the source; every send of the cycle is the probe command or a roll
command, so no branch-specific follow-up and no confirmation token is ever
sent. -/
theorem C3_no_branch_commands (probeOk : Bool) (batch : List Msg)
    (r : Nat → ℚ) :
    (check_claim_and_execute probeOk batch r).all sendAllowed = true := by
  have htu : sendAllowed (Event.send tuCmd) = true := by decide
  unfold check_claim_and_execute
  cases probeOk
  · simp [htu]
  · cases hsel : selectModayResponse batch with
    | none => simp [htu, sendAllowed]
    | some content =>
      simp [htu, sendAllowed, rollTrace_all_sendAllowed]

/-- First-attempt shape of `send_message`: pacing sleep then one post. -/
lemma send_message_cons_shape (x : Except Unit PostResp)
    (rest : List (Except Unit PostResp)) (r : Nat → ℚ) (i : Nat) :
    ∃ t res, send_message (x :: rest) r i
      = (TEvent.sleep (uniform 1 2 (r i)) :: TEvent.req :: t, res) := by
  cases x with
  | error e => exact ⟨[], none, rfl⟩
  | ok resp =>
    by_cases h1 : resp.status = 200 ∨ resp.status = 201
    · exact ⟨[], some resp.payload, by simp [send_message, h1]⟩
    · by_cases h2 : resp.status = 429
      · refine ⟨TEvent.sleep (((resp.retryAfter.getD 5 : Nat) : ℚ)
            + uniform 1 3 (r (i + 1))) :: (send_message rest r (i + 2)).1,
          (send_message rest r (i + 2)).2, ?_⟩
        simp [send_message, h1, h2]
      · exact ⟨[], none, by simp [send_message, h1, h2]⟩

/-- First-attempt shape of `add_reaction`: one put request first. -/
lemma add_reaction_cons_shape (x : Except Unit ReactResp)
    (restr : List (Except Unit ReactResp)) (r : Nat → ℚ) (i : Nat) :
    ∃ t res, add_reaction (x :: restr) r i = (TEvent.req :: t, res) := by
  cases x with
  | error e => exact ⟨[], false, rfl⟩
  | ok resp =>
    by_cases h1 : resp.status = 204
    · exact ⟨[], true, by simp [add_reaction, h1]⟩
    · by_cases h2 : resp.status = 429
      · refine ⟨TEvent.sleep (((resp.retryAfter.getD 1 : Nat) : ℚ)
            + uniform (1/2) (3/2) (r i)) :: (add_reaction restr r (i + 1)).1,
          (add_reaction restr r (i + 1)).2, ?_⟩
        simp [add_reaction, h1, h2]
      · exact ⟨[], false, by simp [add_reaction, h1, h2]⟩

/-- C4 counterexample: a fetch answered 429 performs exactly one request,
sleeps for no advised wait, and returns the failure value instead of
retrying. -/
theorem C4_counterexample :
    get_recent_messages (Except.ok ⟨429, [c2Msg]⟩) = ([TEvent.req], [])
    ∧ ¬2 ≤ ((get_recent_messages (Except.ok ⟨429, [c2Msg]⟩)).1.count
        TEvent.req)
    ∧ (∀ e ∈ (get_recent_messages (Except.ok ⟨429, [c2Msg]⟩)).1,
        e = TEvent.req) := by
  decide

/-- C4 (amended): a 429 on a message post sleeps the advised wait `W` plus
a jitter in [1, 3) before the identical retried post, and a 429 on a
reaction put sleeps `W` plus a jitter in [0.5, 1.5) before the retried
put, so the retry happens no sooner than `W` after the failure; a fetch
answered 429 makes exactly one request and returns the failure value
without retrying. -/
theorem C4_rate_limit_retry (W p : Nat) (resp2 : Except Unit PostResp)
    (rest : List (Except Unit PostResp)) (resp2r : Except Unit ReactResp)
    (restr : List (Except Unit ReactResp)) (body : List Msg) (r : Nat → ℚ)
    (hr : ∀ i, 0 ≤ r i ∧ r i < 1) :
    (∃ j p2 t res,
      send_message (Except.ok ⟨429, some W, p⟩ :: resp2 :: rest) r 0
        = (TEvent.sleep (uniform 1 2 (r 0)) :: TEvent.req ::
            TEvent.sleep ((W : ℚ) + j) :: TEvent.sleep p2 :: TEvent.req ::
            t, res)
      ∧ 1 ≤ j ∧ j < 3 ∧ (W : ℚ) ≤ (W : ℚ) + j + p2)
    ∧ (∃ j t res,
      add_reaction (Except.ok ⟨429, some W⟩ :: resp2r :: restr) r 0
        = (TEvent.req :: TEvent.sleep ((W : ℚ) + j) :: TEvent.req :: t, res)
      ∧ 1/2 ≤ j ∧ j < 3/2 ∧ (W : ℚ) ≤ (W : ℚ) + j)
    ∧ get_recent_messages (Except.ok ⟨429, body⟩) = ([TEvent.req], []) := by
  refine ⟨?_, ?_, by simp [get_recent_messages]⟩
  · obtain ⟨t2, res2, hshape⟩ := send_message_cons_shape resp2 rest r 2
    refine ⟨uniform 1 3 (r 1), uniform 1 2 (r 2), t2, res2, ?_, ?_, ?_, ?_⟩
    · simp [send_message, hshape]
    · exact uniform_lb _ _ _ (by norm_num) (hr 1).1
    · exact uniform_ub _ _ _ (by norm_num) (hr 1).2
    · have hj := uniform_lb 1 3 (r 1) (by norm_num) (hr 1).1
      have hp := uniform_lb 1 2 (r 2) (by norm_num) (hr 2).1
      linarith
  · obtain ⟨t2, res2, hshape⟩ := add_reaction_cons_shape resp2r restr r 1
    refine ⟨uniform (1/2) (3/2) (r 0), t2, res2, ?_, ?_, ?_, ?_⟩
    · simp [add_reaction, hshape]
    · exact uniform_lb _ _ _ (by norm_num) (hr 0).1
    · exact uniform_ub _ _ _ (by norm_num) (hr 0).2
    · have hj := uniform_lb (1/2) (3/2) (r 0) (by norm_num) (hr 0).1
      linarith

/-- C4 witness at a concrete response sequence and oracle. -/
theorem C4_rate_limit_retry_witness :
    (∃ j p2 t res,
      send_message (Except.ok ⟨429, some 7, 0⟩ ::
          Except.ok ⟨200, none, 1⟩ :: []) rZero 0
        = (TEvent.sleep (uniform 1 2 (rZero 0)) :: TEvent.req ::
            TEvent.sleep ((7 : ℚ) + j) :: TEvent.sleep p2 :: TEvent.req ::
            t, res)
      ∧ 1 ≤ j ∧ j < 3 ∧ (7 : ℚ) ≤ (7 : ℚ) + j + p2)
    ∧ (∃ j t res,
      add_reaction (Except.ok ⟨429, some 7⟩ :: Except.ok ⟨204, none⟩ :: [])
          rZero 0
        = (TEvent.req :: TEvent.sleep ((7 : ℚ) + j) :: TEvent.req :: t, res)
      ∧ 1/2 ≤ j ∧ j < 3/2 ∧ (7 : ℚ) ≤ (7 : ℚ) + j)
    ∧ get_recent_messages (Except.ok ⟨429, [c2Msg]⟩) = ([TEvent.req], []) :=
  C4_rate_limit_retry 7 0 (Except.ok ⟨200, none, 1⟩) []
    (Except.ok ⟨204, none⟩) [] [c2Msg] rZero
    (fun _ => ⟨le_refl 0, zero_lt_one⟩)

/-- C5: every transport operation answered by a non-2xx, non-429 status,
or hit by an internal exception, returns its failure sentinel (empty list,
`none`, `false`) instead of raising (the embedded functions are total),
and a failed probe send makes the cycle skip everything after the probe. -/
theorem C5_failure_sentinels (s : Nat) (ra : Option Nat) (p : Nat)
    (body : List Msg) (rest : List (Except Unit PostResp))
    (restr : List (Except Unit ReactResp)) (r : Nat → ℚ) (i : Nat)
    (batch : List Msg)
    (h2xx : ¬(200 ≤ s ∧ s ≤ 299)) (h429 : s ≠ 429) :
    (send_message (Except.ok ⟨s, ra, p⟩ :: rest) r i).2 = none
    ∧ (get_recent_messages (Except.ok ⟨s, body⟩)).2 = []
    ∧ (add_reaction (Except.ok ⟨s, ra⟩ :: restr) r i).2 = false
    ∧ (send_message (Except.error () :: rest) r i).2 = none
    ∧ (get_recent_messages (Except.error ())).2 = []
    ∧ (add_reaction (Except.error () :: restr) r i).2 = false
    ∧ check_claim_and_execute false batch r = [Event.send tuCmd] := by
  have hs200 : s ≠ 200 := by omega
  have hs201 : s ≠ 201 := by omega
  have hs204 : s ≠ 204 := by omega
  refine ⟨?_, ?_, ?_, rfl, rfl, rfl, ?_⟩
  · simp [send_message, hs200, hs201, h429]
  · simp [get_recent_messages, hs200]
  · simp [add_reaction, hs204, h429]
  · simp [check_claim_and_execute]

/-- C5 witness at status 500. -/
theorem C5_failure_sentinels_witness :
    (send_message (Except.ok ⟨500, none, 0⟩ :: []) rZero 0).2 = none
    ∧ (get_recent_messages (Except.ok ⟨500, [c2Msg]⟩)).2 = []
    ∧ (add_reaction (Except.ok ⟨500, none⟩ :: []) rZero 0).2 = false
    ∧ (send_message (Except.error () :: []) rZero 0).2 = none
    ∧ (get_recent_messages (Except.error ())).2 = []
    ∧ (add_reaction (Except.error () :: []) rZero 0).2 = false
    ∧ check_claim_and_execute false [c2Msg] rZero = [Event.send tuCmd] :=
  C5_failure_sentinels 500 none 0 [c2Msg] [] [] rZero 0 [c2Msg]
    (by decide) (by decide)

/-- `lastOr` over an append runs the two halves in sequence. -/
lemma lastOr_append :
    ∀ (p q : List Nat) (c : Option Nat),
      lastOr (p ++ q) c = lastOr q (lastOr p c) := by
  intro p
  induction p with
  | nil => intro q c; rfl
  | cons x t ih => intro q c; simpa [lastOr] using ih q (some x)

/-- On a nonempty list, `lastOr` ignores the fallback cursor. -/
lemma lastOr_ne_nil (q : List Nat) (hq : q ≠ []) (c c' : Option Nat) :
    lastOr q c = lastOr q c' := by
  cases q with
  | nil => exact absurd rfl hq
  | cons y t => rfl

/-- `lastOr` with a `some` fallback yields the last element, or the
fallback itself. -/
lemma lastOr_some (l : List Nat) :
    ∀ x, ∃ a, lastOr l (some x) = some a ∧ (a = x ∨ a ∈ l) := by
  induction l with
  | nil => intro x; exact ⟨x, rfl, Or.inl rfl⟩
  | cons y t ih =>
    intro x
    obtain ⟨a, ha, hc⟩ := ih y
    refine ⟨a, ha, Or.inr ?_⟩
    cases hc with
    | inl h => simp [h]
    | inr h => simp [h]

/-- An id produced by `lastOr` from the empty fallback is a member. -/
lemma lastOr_none_mem (l : List Nat) (a : Nat)
    (h : lastOr l none = some a) : a ∈ l := by
  cases l with
  | nil => exact absurd h (by simp [lastOr])
  | cons y t =>
    obtain ⟨b, hb, hc⟩ := lastOr_some t y
    have hba : b = a := by
      have : lastOr (y :: t) none = some b := hb
      rw [h] at this
      exact (Option.some.injEq _ _ ▸ this).symm
    subst hba
    cases hc with
    | inl hx => simp [hx]
    | inr hx => simp [hx]

/-- The cursor after a run of scans is the newest id of the last nonempty
fetch, or the starting cursor when every fetch was empty. -/
lemma cursorAfter_eq (selfId : Nat) :
    ∀ (bs : List (List Msg)) (c : Option Nat),
      cursorAfter selfId c bs = lastOr (batchHeadIds bs) c := by
  intro bs
  induction bs with
  | nil => intro c; rfl
  | cons b t ih =>
    intro c
    cases b with
    | nil =>
      simpa [cursorAfter, monitorScan, batchHeadIds, lastOr] using ih c
    | cons m ms =>
      simpa [cursorAfter, monitorScan, batchHeadIds, lastOr]
        using ih (some m.id)

/-- Along a sorted id list, extending the scanned prefix can only move the
`lastOr` cursor upward. -/
lemma lastOr_app_mono (p q : List Nat)
    (hs : (p ++ q).Sorted (· ≤ ·)) (a : Nat)
    (h : lastOr p none = some a) :
    ∃ b, lastOr (p ++ q) none = some b ∧ a ≤ b := by
  rw [lastOr_append, h]
  cases q with
  | nil => exact ⟨a, rfl, le_refl a⟩
  | cons y t =>
    obtain ⟨b, hb, _⟩ := lastOr_some t y
    have hbn : lastOr (y :: t) none = some b := hb
    have hbmem : b ∈ y :: t := lastOr_none_mem _ _ hbn
    refine ⟨b, ?_, ?_⟩
    · rw [lastOr_ne_nil (y :: t) (by simp) (some a) none]
      exact hbn
    · have ha : a ∈ p := lastOr_none_mem p a h
      exact (List.pairwise_append.mp hs).2.2 a ha b hbmem

/-- C6: the monitor cursor is non-decreasing across scans, assuming the
newest id returned by the nonempty fetches never decreases, and an empty
fetch leaves the cursor unchanged while dispatching nothing. -/
theorem C6_cursor_monotone (selfId : Nat) (bs : List (List Msg))
    (k1 k2 : Nat) (hk : k1 ≤ k2)
    (hsorted : (batchHeadIds bs).Sorted (· ≤ ·)) :
    (∀ a, cursorAfter selfId none (bs.take k1) = some a →
      ∃ b, cursorAfter selfId none (bs.take k2) = some b ∧ a ≤ b)
    ∧ (∀ c, monitorScan selfId c [] = ([], c)) := by
  constructor
  · intro a ha
    have hsplit : batchHeadIds (bs.take k2) ++ batchHeadIds (bs.drop k2)
        = batchHeadIds bs := by
      unfold batchHeadIds
      rw [← List.filterMap_append, List.take_append_drop]
    have hsorted2 : (batchHeadIds (bs.take k2)).Sorted (· ≤ ·) := by
      rw [← hsplit] at hsorted
      exact (List.pairwise_append.mp hsorted).1
    have htk : (bs.take k2).take k1 = bs.take k1 := by
      rw [List.take_take, min_eq_left hk]
    have hsplit2 :
        batchHeadIds (bs.take k1) ++ batchHeadIds ((bs.take k2).drop k1)
          = batchHeadIds (bs.take k2) := by
      rw [← htk]
      unfold batchHeadIds
      rw [← List.filterMap_append, List.take_append_drop]
    rw [cursorAfter_eq] at ha
    rw [cursorAfter_eq, ← hsplit2]
    refine lastOr_app_mono _ _ ?_ a ha
    rw [hsplit2]
    exact hsorted2
  · intro c
    rfl

/-- C6 witness: two singleton fetches with increasing newest ids. -/
theorem C6_cursor_monotone_witness :
    (∀ a, cursorAfter 111 none ([[mA], [mB]].take 1) = some a →
      ∃ b, cursorAfter 111 none ([[mA], [mB]].take 2) = some b ∧ a ≤ b)
    ∧ (∀ c, monitorScan 111 c [] = ([], c)) :=
  C6_cursor_monotone 111 [[mA], [mB]] 1 2 (by decide) (by decide)

/-- C7: evaluating the monitor at a concrete pair of scans.  The first
scan (no cursor) dispatches messages 1 and 2 and sets the cursor to 2; the
second scan, fetching message 3 on top, walks oldest-to-newest, dispatches
message 1 again before breaking at the cursor id 2, and never dispatches
the new message 3.  A message with id at most the cursor is therefore
dispatched twice, against the already-seen-boundary intent. -/
theorem C7_redispatch_eval :
    monitorScan 111 none [mB, mA] = ([mA, mB], some 2)
    ∧ monitorScan 111 (some 2) [mC, mB, mA] = ([mA], some 3)
    ∧ mA ∈ (monitorScan 111 none [mB, mA]).1
    ∧ mA ∈ (monitorScan 111 (some 2) [mC, mB, mA]).1
    ∧ mA.id ≤ 2
    ∧ mC ∉ (monitorScan 111 (some 2) [mC, mB, mA]).1 := by
  decide

/-- C10: on the very first scan no cursor is set, so the walk never breaks
and every message of the fetched batch that is peer-authored and not
self-authored is dispatched, oldest to newest, regardless of its id; the
cursor is then set to the newest fetched id. -/
theorem C10_first_scan (selfId : Nat) (batch : List Msg) :
    monitorScan selfId none batch
      = (batch.reverse.filter
          (fun m => !(m.author.id == selfId) && isMoDayMonitor m.author),
         match batch with
         | [] => none
         | m :: _ => some m.id) := by
  unfold monitorScan
  refine congrArg (fun l => (l, _)) ?_
  generalize batch.reverse = l
  induction l with
  | nil => rfl
  | cons m ms ih =>
    by_cases h1 : m.author.id = selfId
    · have hb : (m.author.id == selfId) = true := by simp [h1]
      simp [monitorWalk, cursorHit, List.filter, hb, ih]
    · have hb : (m.author.id == selfId) = false := by simp [h1]
      by_cases h2 : isMoDayMonitor m.author = true
      · simp [monitorWalk, cursorHit, List.filter, hb, h2, ih]
      · simp only [Bool.not_eq_true] at h2
        simp [monitorWalk, cursorHit, List.filter, hb, h2, ih]

/-- The inner candidate loop returns the first stripped match passing the
filter. -/
lemma extractInner_eq (ms : List (List Char)) :
    extractInner ms = (ms.map pyStrip).find? nameOk := by
  induction ms with
  | nil => rfl
  | cons m t ih =>
    by_cases h : nameOk (pyStrip m) = true
    · simp [extractInner, List.find?, h]
    · simp only [Bool.not_eq_true] at h
      simp [extractInner, List.find?, h, ih]

/-- The outer pattern loop returns the first qualifying candidate in
pattern-major order. -/
lemma extractOuter_eq (s : List Char) :
    ∀ ps : List DelimPat,
      extractOuter s ps
        = (ps.flatMap (fun p => (findallDelim p s).map pyStrip)).find?
            nameOk := by
  intro ps
  induction ps with
  | nil => rfl
  | cons p t ih =>
    simp only [List.flatMap_cons, List.find?_append, extractOuter,
      extractInner_eq, ih]
    cases h : ((findallDelim p s).map pyStrip).find? nameOk with
    | none => simp [h]
    | some n => simp [h]

/-- C8: `extract_character_name` returns the first stripped candidate, in
pattern-list order and then text order, whose length exceeds 2, which is
not purely numeric, and which does not start with the command prefix
character; it returns none exactly when no candidate qualifies. -/
theorem C8_first_qualifying (s : List Char) :
    extract_character_name s = (candidateNames s).find? nameOk
    ∧ (extract_character_name s = none ↔
        ∀ c ∈ candidateNames s, nameOk c = false) := by
  have h1 : extract_character_name s = (candidateNames s).find? nameOk := by
    unfold extract_character_name candidateNames
    exact extractOuter_eq s patternsList
  refine ⟨h1, ?_⟩
  rw [h1, List.find?_eq_none]
  simp only [Bool.not_eq_true]

/-- C9: an uncaught error in one iteration of either loop is caught at the
iteration boundary; the claim scheduler then sleeps an extended cooldown
in [300, 600) and the monitor one in [30, 60), instead of their normal
intervals, and each loop still runs every remaining iteration; a normal
scheduler iteration sleeps 3600 plus a jitter in [-100, 100). -/
theorem C9_loop_resilience (r : Nat → ℚ) (outcomes : List Outcome) (i : Nat)
    (hr : ∀ k, 0 ≤ r k ∧ r k < 1) :
    (claim_check_loop r outcomes i).length = outcomes.length
    ∧ (message_monitor_loop r outcomes i).length = outcomes.length
    ∧ (∀ q, (Outcome.err, q) ∈ claim_check_loop r outcomes i →
        300 ≤ q ∧ q < 600)
    ∧ (∀ q, (Outcome.err, q) ∈ message_monitor_loop r outcomes i →
        30 ≤ q ∧ q < 60)
    ∧ (∀ q, (Outcome.ok, q) ∈ claim_check_loop r outcomes i →
        3500 ≤ q ∧ q < 3700) := by
  induction outcomes generalizing i with
  | nil =>
    refine ⟨rfl, rfl, ?_, ?_, ?_⟩ <;> intro q hq <;>
      simp [claim_check_loop, message_monitor_loop] at hq
  | cons o os ih =>
    obtain ⟨ih1, ih2, ih3, ih4, ih5⟩ := ih (i + 1)
    cases o with
    | ok =>
      refine ⟨by simp [claim_check_loop, ih1],
        by simp [message_monitor_loop, ih2], ?_, ?_, ?_⟩
      · intro q hq
        simp only [claim_check_loop, List.mem_cons, Prod.mk.injEq] at hq
        rcases hq with ⟨hq, _⟩ | hq
        · exact absurd hq (by decide)
        · exact ih3 q hq
      · intro q hq
        simp only [message_monitor_loop, List.mem_cons, Prod.mk.injEq] at hq
        rcases hq with ⟨hq, _⟩ | hq
        · exact absurd hq (by decide)
        · exact ih4 q hq
      · intro q hq
        simp only [claim_check_loop, List.mem_cons, Prod.mk.injEq] at hq
        rcases hq with ⟨_, hq⟩ | hq
        · subst hq
          have hlb := uniform_lb (-100) 100 (r i) (by norm_num) (hr i).1
          have hub := uniform_ub (-100) 100 (r i) (by norm_num) (hr i).2
          constructor <;> linarith
        · exact ih5 q hq
    | err =>
      refine ⟨by simp [claim_check_loop, ih1],
        by simp [message_monitor_loop, ih2], ?_, ?_, ?_⟩
      · intro q hq
        simp only [claim_check_loop, List.mem_cons, Prod.mk.injEq] at hq
        rcases hq with ⟨_, hq⟩ | hq
        · subst hq
          have hlb := uniform_lb 300 600 (r i) (by norm_num) (hr i).1
          have hub := uniform_ub 300 600 (r i) (by norm_num) (hr i).2
          exact ⟨hlb, hub⟩
        · exact ih3 q hq
      · intro q hq
        simp only [message_monitor_loop, List.mem_cons, Prod.mk.injEq] at hq
        rcases hq with ⟨_, hq⟩ | hq
        · subst hq
          have hlb := uniform_lb 30 60 (r i) (by norm_num) (hr i).1
          have hub := uniform_ub 30 60 (r i) (by norm_num) (hr i).2
          exact ⟨hlb, hub⟩
        · exact ih4 q hq
      · intro q hq
        simp only [claim_check_loop, List.mem_cons, Prod.mk.injEq] at hq
        rcases hq with ⟨hq, _⟩ | hq
        · exact absurd hq (by decide)
        · exact ih5 q hq

/-- C9 witness at a concrete outcome sequence and oracle. -/
theorem C9_loop_resilience_witness :
    (claim_check_loop rZero [Outcome.ok, Outcome.err] 0).length
        = ([Outcome.ok, Outcome.err] : List Outcome).length
    ∧ (message_monitor_loop rZero [Outcome.ok, Outcome.err] 0).length
        = ([Outcome.ok, Outcome.err] : List Outcome).length
    ∧ (∀ q, (Outcome.err, q) ∈ claim_check_loop rZero [Outcome.ok, Outcome.err] 0 →
        300 ≤ q ∧ q < 600)
    ∧ (∀ q, (Outcome.err, q) ∈ message_monitor_loop rZero [Outcome.ok, Outcome.err] 0 →
        30 ≤ q ∧ q < 60)
    ∧ (∀ q, (Outcome.ok, q) ∈ claim_check_loop rZero [Outcome.ok, Outcome.err] 0 →
        3500 ≤ q ∧ q < 3700) :=
  C9_loop_resilience rZero [Outcome.ok, Outcome.err] 0
    (fun _ => ⟨le_refl 0, zero_lt_one⟩)

end SelfBot
